import Mathlib

/-!
Verification of the paginated-crawl engine `InfinitePageCrawler` from
`src/eastmoney_crawler.py`.

The embedding is shallow: the control loop of `crawl` becomes a step function
on an explicit state record, driven by an oracle that supplies, for each page
number, the outcome of the external collaborators (HTTP fetch, parser,
continuation predicate).  Python strings become `String` (lists of characters
under the hood), Python ints become `Nat`, falsy/`None` returns become
`Option`, raised-and-caught exceptions become explicit outcome constructors.
Side effects that only log are dropped; side effects that persist data
(`save_data`) are recorded in the state as an append-only list of
label/batch pairs.  Recursions bounded by a numeric measure are written as
structural recursion on that measure so that every definition evaluates by
kernel reduction.
-/

namespace RawlerApp

/-- Characters of `pat` occur as a prefix of `s`. -/
def startsWith : List Char → List Char → Bool
  | [], _ => true
  | _ :: _, [] => false
  | p :: ps, c :: cs => p == c && startsWith ps cs

/-- Characters of `pat` occur contiguously somewhere in `s` (Python's
substring test `pat in s`). -/
def hasSub (pat : List Char) : List Char → Bool
  | [] => startsWith pat []
  | c :: cs => startsWith pat (c :: cs) || hasSub pat cs

/-- Worker for `replaceSub`: `fuel` bounds the length of the list being
scanned, so the recursion is structural; `replaceSub` instantiates it with the
exact length.  At a position where (nonempty) `pat` matches, emit `rep` and
skip past the matched characters; otherwise keep the character and move on. -/
def replaceGo (pat rep : List Char) : Nat → List Char → List Char
  | _, [] => []
  | 0, s => s
  | fuel + 1, c :: cs =>
    if startsWith pat (c :: cs) then
      rep ++ replaceGo pat rep fuel (List.drop (pat.length - 1) cs)
    else
      c :: replaceGo pat rep fuel cs

/-- Replace every non-overlapping occurrence of `pat` (assumed nonempty in all
uses below) in `s` by `rep`, scanning left to right — the semantics of Python's
`str.replace`. -/
def replaceSub (pat rep s : List Char) : List Char := replaceGo pat rep s.length s

/-- Python `pat in s` on `String`. -/
def strHas (s pat : String) : Bool := hasSub pat.data s.data

/-- Python `s.replace(pat, rep)` on `String`. -/
def strReplace (s pat rep : String) : String := String.mk (replaceSub pat.data rep.data s.data)

/-- URL construction from `InfinitePageCrawler.crawl` (src/eastmoney_crawler.py
lines 149–155):

```
if '{page}' in self.base_url:
    url = self.base_url.format(page=page_num)
elif '?page=' in self.base_url:
    url = self.base_url.replace('page=1', f'page={page_num}')
else:
    url = f"{self.base_url}?page={page_num}"
```

`str.format(page=page_num)` is embedded as replacing every occurrence of the
field `"{page}"` by the decimal rendering of the page number, which is its
behaviour on templates whose only replacement field is `page`. -/
def build_url (base_url : String) (page_num : Nat) : String :=
  if strHas base_url "{page}" then
    strReplace base_url "{page}" (toString page_num)
  else if strHas base_url "?page=" then
    strReplace base_url "page=1" ("page=" ++ toString page_num)
  else
    base_url ++ "?page=" ++ toString page_num

/-- Backoff delay (in seconds) slept before retry number `retry_count + 1`:
`time.sleep(2 ** retry_count)` in `InfinitePageCrawler.fetch_page`
(src/eastmoney_crawler.py line 60). -/
def backoff_delay (retry_count : Nat) : Nat := 2 ^ retry_count

/-- Worker for `fetch_page`: `remaining` is the number of retries still
allowed, i.e. `max_retries - retry_count`, making the recursion structural. -/
def fetchAux (attempt : Nat → Option String) (remaining retry_count : Nat) :
    Option String × List Nat :=
  match attempt retry_count with
  | some html => (some html, [])
  | none =>
    match remaining with
    | 0 => (none, [])
    | r + 1 =>
      let res := fetchAux attempt r (retry_count + 1)
      (res.1, backoff_delay retry_count :: res.2)

/-- Shallow embedding of `InfinitePageCrawler.fetch_page`
(src/eastmoney_crawler.py lines 51–64).  `attempt i` is the outcome of the
`i`-th `self.session.get` call for this page: `some html` if the request
succeeds, `none` if it raises a `RequestException`.  The recursion
`if retry_count < max_retries then retry else give up` is fueled by
`max_retries - retry_count`, which is positive exactly when
`retry_count < max_retries`.  The function returns the value `fetch_page`
returns (`some html`, or the failure value `none` — it never propagates the
exception) together with the list of backoff delays slept, one entry per
logged retry event. -/
def fetch_page (max_retries : Nat) (attempt : Nat → Option String) (retry_count : Nat) :
    Option String × List Nat :=
  fetchAux attempt (max_retries - retry_count) retry_count

/-- One `PageResult`: the dict `{'page': page_num, 'url': url, 'data': data}`
appended to `all_data` in `crawl` (src/eastmoney_crawler.py lines 185–189).
The external parser's record lists are abstracted by their lengths
(`articles = len(data['articles'])`, `links = len(data['links'])`), which is
all the engine ever inspects. -/
structure PageResult where
  page : Nat
  url : String
  articles : Nat
  links : Nat
deriving Repr, DecidableEq

/-- The `self.stats` dictionary of `InfinitePageCrawler` (timestamps, which are
real-time data, are omitted). -/
structure RunStats where
  pages_crawled : Nat
  total_data : Nat
  errors : Nat
deriving Repr, DecidableEq

/-- Loop-local state of one `crawl` run: the page cursor, the
consecutive-empty-page counter, the in-memory buffer `all_data`, the mutable
statistics, and the append-only log of `save_data` calls (label, batch). -/
structure CrawlState where
  page_num : Nat
  empty_pages_count : Nat
  all_data : List PageResult
  stats : RunStats
  saves : List (String × List PageResult)
deriving Repr, DecidableEq

/-- Parameters of one run: `base_url` from `__init__`, the rest are the
keyword arguments of `crawl`. -/
structure CrawlConfig where
  base_url : String
  start_page : Nat
  max_empty_pages : Nat
  save_interval : Nat
deriving Repr, DecidableEq

/-- Outcome of the `has_next_page` call for a page: the Boolean it returns, or
an unexpected exception (caught by the iteration's generic `except`). -/
inductive NextOutcome where
  | hasNext (b : Bool)
  | raiseErr
deriving Repr, DecidableEq

/-- Oracle value describing everything the external world does during one loop
iteration of `crawl`:
* `fetchFail` — `fetch_page` returned a falsy value (`None` after exhausted
  retries, or an empty body);
* `parseError` — an unexpected exception was raised while processing the page
  (e.g. inside `parse_page`), before any accounting happened, and is caught by
  the iteration's generic `except Exception` handler;
* `page articles links next` — the page parsed into `articles` article records
  and `links` link records, and the continuation predicate behaved as `next`.
Each loop iteration processes a distinct page number (the cursor strictly
increases), so outcomes are indexed by page number. -/
inductive PageOutcome where
  | fetchFail
  | parseError
  | page (articles links : Nat) (next : NextOutcome)
deriving Repr, DecidableEq

/-- How a run of `crawl` left its `while True` loop.  `noContent` is the
`break` after `empty_pages_count >= max_empty_pages` (lines 164–166 and
178–180), `lastPage` the `break` after `has_next_page` returns false
(lines 199–201), `safetyLimit` the `break` at the 10 000 000-page ceiling
(lines 210–212). -/
inductive StopReason where
  | noContent
  | lastPage
  | safetyLimit
deriving Repr, DecidableEq

/-- The hard-coded safety ceiling `10000000` of src/eastmoney_crawler.py
line 210. -/
def safetyCeiling : Nat := 10000000

/-- Python `all_data[-k:]`: the last `k` elements of the buffer, used for the
periodic checkpoint batch (line 194). -/
def takeLast (k : Nat) (l : List PageResult) : List PageResult := l.drop (l.length - k)

/-- Tail of a loop iteration, from the `has_next_page` check to the safety
ceiling check (src/eastmoney_crawler.py lines 198–212): if the predicate
raises, the generic handler counts an error and advances the cursor; if it
returns `False` the loop breaks (`lastPage`); otherwise the random inter-page
delay happens (pure time, not modelled), the cursor advances, and the loop
breaks with `safetyLimit` when the new cursor exceeds the ceiling. -/
def afterData (s : CrawlState) (next : NextOutcome) : CrawlState ⊕ (CrawlState × StopReason) :=
  match next with
  | .raiseErr =>
    .inl { s with stats := { s.stats with errors := s.stats.errors + 1 },
                  page_num := s.page_num + 1 }
  | .hasNext false => .inr (s, .lastPage)
  | .hasNext true =>
    if safetyCeiling < s.page_num + 1 then
      .inr ({ s with page_num := s.page_num + 1 }, .safetyLimit)
    else
      .inl { s with page_num := s.page_num + 1 }

/-- The productive-page branch (src/eastmoney_crawler.py lines 182–189):
reset `empty_pages_count` to zero, increment `pages_crawled`, add the page's
record count (`len(data['articles']) + len(data['links'])`) to `total_data`,
and append the `PageResult` for the current page to `all_data`.  The page
cursor is untouched here. -/
def appendResult (cfg : CrawlConfig) (s : CrawlState) (a l : Nat) : CrawlState :=
  { s with
    empty_pages_count := 0,
    stats := { s.stats with
      pages_crawled := s.stats.pages_crawled + 1,
      total_data := s.stats.total_data + (a + l) },
    all_data := s.all_data ++
      [{ page := s.page_num, url := build_url cfg.base_url s.page_num,
         articles := a, links := l }] }

/-- The periodic checkpoint (src/eastmoney_crawler.py lines 191–196): when the
current page number divides evenly by `save_interval`, store the last
`save_interval` buffered results (`all_data[-save_interval:]`) under label
`batch_{page_num // save_interval}`.  The buffer itself is not cleared. -/
def maybeCheckpoint (cfg : CrawlConfig) (s : CrawlState) : CrawlState :=
  if s.page_num % cfg.save_interval = 0 then
    { s with saves := s.saves ++
      [("batch_" ++ toString (s.page_num / cfg.save_interval),
        takeLast cfg.save_interval s.all_data)] }
  else s

/-- One iteration of the `while True` loop of `InfinitePageCrawler.crawl`
(src/eastmoney_crawler.py lines 147–220), given the oracle outcome for the
current page.  `.inl s` means the loop continues in state `s`; `.inr (s, r)`
means it breaks with reason `r`.

* fetch failure (`if not html`, lines 161–168): increment
  `empty_pages_count`; break with `noContent` when it reaches
  `max_empty_pages`, else advance the cursor and `continue` (skipping the
  predicate, the delay and the ceiling check);
* unexpected processing exception (lines 217–220): `errors += 1`,
  `page_num += 1`, loop continues;
* parsed page (lines 174–196): if it has no articles and no links, increment
  `empty_pages_count` and break with `noContent` when the limit is reached;
  otherwise reset the counter, update the statistics, append the result to
  `all_data`, and if `page_num` divides evenly by `save_interval` record a
  checkpoint save of `all_data[-save_interval:]` under label
  `batch_{page_num // save_interval}`; in either surviving case fall through
  to `afterData`. -/
def stepOutcome (cfg : CrawlConfig) (s : CrawlState) (o : PageOutcome) :
    CrawlState ⊕ (CrawlState × StopReason) :=
  match o with
  | .fetchFail =>
    if cfg.max_empty_pages ≤ s.empty_pages_count + 1 then
      .inr ({ s with empty_pages_count := s.empty_pages_count + 1 }, .noContent)
    else
      .inl { s with empty_pages_count := s.empty_pages_count + 1,
                    page_num := s.page_num + 1 }
  | .parseError =>
    .inl { s with stats := { s.stats with errors := s.stats.errors + 1 },
                  page_num := s.page_num + 1 }
  | .page a l next =>
    if a = 0 ∧ l = 0 then
      if cfg.max_empty_pages ≤ s.empty_pages_count + 1 then
        .inr ({ s with empty_pages_count := s.empty_pages_count + 1 }, .noContent)
      else
        afterData { s with empty_pages_count := s.empty_pages_count + 1 } next
    else
      afterData (maybeCheckpoint cfg (appendResult cfg s a l)) next

/-- The `while True` loop itself, fueled (the Python loop may run
unboundedly); `none` means the fuel ran out before the loop broke. -/
def crawlLoop (cfg : CrawlConfig) (oracle : Nat → PageOutcome) :
    Nat → CrawlState → Option (CrawlState × StopReason)
  | 0, _ => none
  | fuel + 1, s =>
    match stepOutcome cfg s (oracle s.page_num) with
    | .inl s' => crawlLoop cfg oracle fuel s'
    | .inr r => some r

/-- The loop-local state at the top of `crawl` (lines 143–145):
`page_num = start_page`, `empty_pages_count = 0`, `all_data = []`, and the
statistics counters from `__init__` all zero. -/
def initState (start_page : Nat) : CrawlState :=
  { page_num := start_page, empty_pages_count := 0, all_data := [],
    stats := { pages_crawled := 0, total_data := 0, errors := 0 }, saves := [] }

/-- A full run of `InfinitePageCrawler.crawl`: run the loop from the initial
state, then (lines 222–224) `if all_data: self.save_data(..., 'final')` — the
final save stores the whole buffer and happens only when it is nonempty. -/
def crawl (cfg : CrawlConfig) (oracle : Nat → PageOutcome) (fuel : Nat) :
    Option (CrawlState × StopReason) :=
  match crawlLoop cfg oracle fuel (initState cfg.start_page) with
  | none => none
  | some (s, r) =>
    if s.all_data = [] then some (s, r)
    else some ({ s with saves := s.saves ++ [("final", s.all_data)] }, r)

/-- The state a step continues or stops in, whichever applies. -/
def contState : CrawlState ⊕ (CrawlState × StopReason) → CrawlState
  | .inl s => s
  | .inr (s, _) => s

/-- The stop reason of a step, if it broke the loop. -/
def stopOf : CrawlState ⊕ (CrawlState × StopReason) → Option StopReason
  | .inl _ => none
  | .inr (_, r) => some r

/-- Outcomes that the loop counts against the consecutive-empty-page budget:
a fetch failure or a page parsing to zero records. -/
def countsAsEmpty : PageOutcome → Bool
  | .fetchFail => true
  | .parseError => false
  | .page a l _ => a == 0 && l == 0

/-- All records stored across every `save_data` call of a run, periodic
checkpoints and final batch alike. -/
def savedRecords (s : CrawlState) : List PageResult := (s.saves.map Prod.snd).flatten

/-- Oracle of the duplicate-storage run used for C2: two productive pages,
then the continuation predicate says stop. -/
def oracleB : Nat → PageOutcome := fun n =>
  if n = 1 then .page 1 0 (.hasNext true)
  else if n = 2 then .page 1 0 (.hasNext false)
  else .fetchFail

/-- The two results that run produces. -/
def resB1 : PageResult := ⟨1, "https://x?page=1", 1, 0⟩

def resB2 : PageResult := ⟨2, "https://x?page=2", 1, 0⟩

/-- The final state of that run with checkpoint interval 1. -/
def stateB : CrawlState :=
  ⟨2, 0, [resB1, resB2], ⟨2, 2, 0⟩,
    [("batch_1", [resB1]), ("batch_2", [resB2]), ("final", [resB1, resB2])]⟩

/-- The implicit synchronisation between statistics and buffer: pages-crawled
equals the buffer length and total-data equals the summed record counts of the
buffered results. -/
def statsInv (s : CrawlState) : Prop :=
  s.stats.pages_crawled = s.all_data.length ∧
  s.stats.total_data = (s.all_data.map (fun r => r.articles + r.links)).sum

/-! ### Helper lemmas about the string primitives -/

theorem startsWith_append (p t : List Char) : startsWith p (p ++ t) = true := by
  induction p with
  | nil => rfl
  | cons c cs ih => simp [startsWith, ih]

theorem hasSub_of_startsWith (p s : List Char) (h : startsWith p s = true) :
    hasSub p s = true := by
  cases s with
  | nil => simpa [hasSub] using h
  | cons c cs => simp [hasSub, h]

theorem hasSub_append_self (p t : List Char) : hasSub p (p ++ t) = true :=
  hasSub_of_startsWith _ _ (startsWith_append p t)

theorem hasSub_cons (p : List Char) (c : Char) (t : List Char) (h : hasSub p t = true) :
    hasSub p (c :: t) = true := by
  simp [hasSub, h]

theorem hasSub_append_mid (s p t : List Char) : hasSub p (s ++ p ++ t) = true := by
  induction s with
  | nil => simpa using hasSub_append_self p t
  | cons c cs ih => simpa using hasSub_cons _ c _ (by simpa using ih)

/-- Whenever a (nonempty) pattern occurs in the scanned list, the replacement
text occurs in the output of `replaceGo`. -/
theorem hasSub_replaceGo (pat rep : List Char) (hpat : pat ≠ []) :
    ∀ fuel s, s.length ≤ fuel → hasSub pat s = true →
      hasSub rep (replaceGo pat rep fuel s) = true := by
  intro fuel
  induction fuel with
  | zero =>
    intro s hlen hs
    have hnil : s = [] := List.length_eq_zero.mp (Nat.le_zero.mp hlen)
    subst hnil
    obtain ⟨p, ps, rfl⟩ := List.exists_cons_of_ne_nil hpat
    simp [hasSub, startsWith] at hs
  | succ fuel ih =>
    intro s hlen hs
    cases s with
    | nil =>
      obtain ⟨p, ps, rfl⟩ := List.exists_cons_of_ne_nil hpat
      simp [hasSub, startsWith] at hs
    | cons c cs =>
      by_cases hsw : startsWith pat (c :: cs) = true
      · simp only [replaceGo, if_pos hsw]
        exact hasSub_append_self rep _
      · simp only [replaceGo, if_neg hsw]
        have hcs : hasSub pat cs = true := by
          simp only [hasSub, Bool.or_eq_true] at hs
          rcases hs with hs | hs
          · exact absurd hs hsw
          · exact hs
        exact hasSub_cons _ c _ (ih cs (by simpa using Nat.le_of_succ_le_succ hlen) hcs)

theorem strData_append (a b : String) : (a ++ b).data = a.data ++ b.data := by
  cases a
  cases b
  rfl

/-- String-level corollary: replacing a nonempty pattern that occurs in `s`
leaves the replacement text somewhere in the output. -/
theorem strHas_strReplace (s pat rep : String) (hpat : pat.data ≠ [])
    (h : strHas s pat = true) : strHas (strReplace s pat rep) rep = true :=
  hasSub_replaceGo pat.data rep.data hpat s.data.length s.data le_rfl h

/-! ### Helper lemmas about the loop model -/

/-- `afterData` only ever touches the page cursor and the error counter. -/
theorem afterData_preserves (s : CrawlState) (next : NextOutcome) :
    (contState (afterData s next)).empty_pages_count = s.empty_pages_count ∧
    (contState (afterData s next)).all_data = s.all_data ∧
    (contState (afterData s next)).saves = s.saves ∧
    (contState (afterData s next)).stats.pages_crawled = s.stats.pages_crawled ∧
    (contState (afterData s next)).stats.total_data = s.stats.total_data := by
  cases next with
  | raiseErr => exact ⟨rfl, rfl, rfl, rfl, rfl⟩
  | hasNext b =>
    cases b with
    | false => exact ⟨rfl, rfl, rfl, rfl, rfl⟩
    | true =>
      by_cases h : safetyCeiling < s.page_num + 1 <;>
        simp [afterData, contState, h]

/-- After the parse already succeeded, the remaining part of an iteration can
break only with `lastPage` or `safetyLimit`, never `noContent`. -/
theorem afterData_not_noContent (s : CrawlState) (next : NextOutcome) :
    stopOf (afterData s next) ≠ some .noContent := by
  cases next with
  | raiseErr => simp [afterData, stopOf]
  | hasNext b =>
    cases b with
    | false => simp [afterData, stopOf]
    | true =>
      by_cases h : safetyCeiling < s.page_num + 1 <;>
        simp [afterData, stopOf, h]

theorem maybeCheckpoint_counter (cfg : CrawlConfig) (s : CrawlState) :
    (maybeCheckpoint cfg s).empty_pages_count = s.empty_pages_count := by
  unfold maybeCheckpoint
  split <;> rfl

theorem maybeCheckpoint_all_data (cfg : CrawlConfig) (s : CrawlState) :
    (maybeCheckpoint cfg s).all_data = s.all_data := by
  unfold maybeCheckpoint
  split <;> rfl

theorem maybeCheckpoint_stats (cfg : CrawlConfig) (s : CrawlState) :
    (maybeCheckpoint cfg s).stats = s.stats := by
  unfold maybeCheckpoint
  split <;> rfl

/-- Master lemma for the empty-page counter: from a state that has not yet
exhausted the budget, a continuing step keeps the counter strictly below the
limit, and a breaking step breaks with `noContent` exactly when the counter
lands on the limit. -/
theorem step_counter_master (cfg : CrawlConfig) (s : CrawlState) (o : PageOutcome)
    (hmax : 1 ≤ cfg.max_empty_pages) (hs : s.empty_pages_count < cfg.max_empty_pages) :
    (stopOf (stepOutcome cfg s o) = none →
      (contState (stepOutcome cfg s o)).empty_pages_count < cfg.max_empty_pages) ∧
    (∀ r, stopOf (stepOutcome cfg s o) = some r →
      (r = .noContent ↔ (contState (stepOutcome cfg s o)).empty_pages_count =
        cfg.max_empty_pages)) := by
  cases o with
  | fetchFail =>
    by_cases hc : cfg.max_empty_pages ≤ s.empty_pages_count + 1
    · constructor
      · intro h
        simp [stepOutcome, hc, stopOf] at h
      · intro r hr
        simp only [stepOutcome, if_pos hc, stopOf] at hr
        obtain rfl := Option.some_injective _ hr
        simp only [stepOutcome, if_pos hc, contState]
        constructor
        · intro _
          omega
        · intro _
          trivial
    · constructor
      · intro _
        simp only [stepOutcome, if_neg hc, contState]
        omega
      · intro r hr
        simp [stepOutcome, hc, stopOf] at hr
  | parseError =>
    constructor
    · intro _
      simpa [stepOutcome, contState] using hs
    · intro r hr
      simp [stepOutcome, stopOf] at hr
  | page a l next =>
    by_cases he : a = 0 ∧ l = 0
    · by_cases hc : cfg.max_empty_pages ≤ s.empty_pages_count + 1
      · constructor
        · intro h
          simp [stepOutcome, he, hc, stopOf] at h
        · intro r hr
          simp only [stepOutcome, if_pos he, if_pos hc, stopOf] at hr
          obtain rfl := Option.some_injective _ hr
          simp only [stepOutcome, if_pos he, if_pos hc, contState]
          constructor
          · intro _
            omega
          · intro _
            trivial
      · have hcnt := (afterData_preserves
          { s with empty_pages_count := s.empty_pages_count + 1 } next).1
        constructor
        · intro _
          simp only [stepOutcome, if_pos he, if_neg hc]
          rw [hcnt]
          dsimp only
          omega
        · intro r hr
          simp only [stepOutcome, if_pos he, if_neg hc] at hr ⊢
          have hne : r ≠ .noContent := by
            intro hre
            subst hre
            exact afterData_not_noContent _ next hr
          rw [hcnt]
          dsimp only
          constructor
          · intro hre
            exact absurd hre hne
          · intro hcontra
            omega
    · have hcnt := (afterData_preserves (maybeCheckpoint cfg (appendResult cfg s a l)) next).1
      have hz : (maybeCheckpoint cfg (appendResult cfg s a l)).empty_pages_count = 0 := by
        rw [maybeCheckpoint_counter]
        rfl
      constructor
      · intro _
        simp only [stepOutcome, if_neg he]
        rw [hcnt, hz]
        omega
      · intro r hr
        simp only [stepOutcome, if_neg he] at hr ⊢
        have hne : r ≠ .noContent := by
          intro hre
          subst hre
          exact afterData_not_noContent _ next hr
        rw [hcnt, hz]
        constructor
        · intro hre
          exact absurd hre hne
        · intro hcontra
          omega

theorem hasSub_append_right (s p : List Char) : hasSub p (s ++ p) = true := by
  simpa using hasSub_append_mid s p []

theorem maybeCheckpoint_page_num (cfg : CrawlConfig) (s : CrawlState) :
    (maybeCheckpoint cfg s).page_num = s.page_num := by
  unfold maybeCheckpoint
  split <;> rfl

/-- A productive page resets the consecutive-empty-page counter to zero, on
every continuation of the iteration. -/
theorem step_reset (cfg : CrawlConfig) (s : CrawlState) (a l : Nat) (next : NextOutcome)
    (hne : ¬(a = 0 ∧ l = 0)) :
    (contState (stepOutcome cfg s (.page a l next))).empty_pages_count = 0 := by
  simp only [stepOutcome, if_neg hne]
  rw [(afterData_preserves _ next).1, maybeCheckpoint_counter]
  rfl

/-- A fetch failure or a zero-record page increments the counter by exactly
one, whether or not the iteration then breaks. -/
theorem step_increment (cfg : CrawlConfig) (s : CrawlState) (o : PageOutcome)
    (ho : countsAsEmpty o = true) :
    (contState (stepOutcome cfg s o)).empty_pages_count = s.empty_pages_count + 1 := by
  cases o with
  | fetchFail =>
    by_cases hc : cfg.max_empty_pages ≤ s.empty_pages_count + 1 <;>
      simp [stepOutcome, hc, contState]
  | parseError => simp [countsAsEmpty] at ho
  | page a l next =>
    have he : a = 0 ∧ l = 0 := by simpa [countsAsEmpty] using ho
    by_cases hc : cfg.max_empty_pages ≤ s.empty_pages_count + 1
    · simp [stepOutcome, he, hc, contState]
    · simp only [stepOutcome, if_pos he, if_neg hc]
      rw [(afterData_preserves _ next).1]

/-- A step out of a within-budget state breaks with `noContent` exactly when
the outcome counts as empty and pushes the counter onto the limit. -/
theorem step_noContent_iff (cfg : CrawlConfig) (s : CrawlState) (o : PageOutcome)
    (hs : s.empty_pages_count < cfg.max_empty_pages) :
    stopOf (stepOutcome cfg s o) = some .noContent ↔
      countsAsEmpty o = true ∧ s.empty_pages_count + 1 = cfg.max_empty_pages := by
  cases o with
  | fetchFail =>
    by_cases hc : cfg.max_empty_pages ≤ s.empty_pages_count + 1
    · simp [stepOutcome, hc, stopOf, countsAsEmpty]
      omega
    · simp [stepOutcome, hc, stopOf, countsAsEmpty]
      omega
  | parseError => simp [stepOutcome, stopOf, countsAsEmpty]
  | page a l next =>
    by_cases he : a = 0 ∧ l = 0
    · obtain ⟨rfl, rfl⟩ := he
      by_cases hc : cfg.max_empty_pages ≤ s.empty_pages_count + 1
      · simp [stepOutcome, hc, stopOf, countsAsEmpty]
        omega
      · simp only [stepOutcome, and_self, if_pos, if_neg hc, countsAsEmpty]
        constructor
        · intro h
          exact absurd h (afterData_not_noContent _ next)
        · rintro ⟨-, heq⟩
          omega
    · simp only [stepOutcome, if_neg he, countsAsEmpty]
      constructor
      · intro h
        exact absurd h (afterData_not_noContent _ next)
      · rintro ⟨hT, -⟩
        rw [Bool.and_eq_true, beq_iff_eq, beq_iff_eq] at hT
        exact absurd hT he

/-- Run-level corollary of `step_counter_master`: starting anywhere within
budget, a terminating run of the loop breaks with `noContent` exactly when its
final counter sits on the configured maximum. -/
theorem crawlLoop_noContent_iff (cfg : CrawlConfig) (oracle : Nat → PageOutcome)
    (hmax : 1 ≤ cfg.max_empty_pages) :
    ∀ fuel s s' r, s.empty_pages_count < cfg.max_empty_pages →
      crawlLoop cfg oracle fuel s = some (s', r) →
      (r = .noContent ↔ s'.empty_pages_count = cfg.max_empty_pages) := by
  intro fuel
  induction fuel with
  | zero =>
    intro s s' r hs h
    simp [crawlLoop] at h
  | succ fuel ih =>
    intro s s' r hs h
    rw [crawlLoop] at h
    cases hstep : stepOutcome cfg s (oracle s.page_num) with
    | inl t =>
      rw [hstep] at h
      have hmaster := (step_counter_master cfg s (oracle s.page_num) hmax hs).1
      rw [hstep] at hmaster
      exact ih t s' r (hmaster rfl) h
    | inr p =>
      obtain ⟨t, r'⟩ := p
      rw [hstep] at h
      have hmaster := (step_counter_master cfg s (oracle s.page_num) hmax hs).2
      rw [hstep] at hmaster
      have heq : (t, r') = (s', r) := Option.some_inj.mp h
      obtain ⟨rfl, rfl⟩ := Prod.mk.injEq _ _ _ _ |>.mp heq
      exact hmaster r' rfl

/-! ### Claims -/

/-- C1: during a run of `crawl`, the consecutive-empty-page counter resets to
0 immediately after any page yielding at least one record, increments (by one)
only on fetch failure or zero-record pages and is untouched by unexpected
processing errors, a step breaks with the no-content reason exactly when such
an outcome pushes the counter onto `max_empty_pages`, and a terminating run
ends for that reason exactly when its final counter equals `max_empty_pages`.
Stated for every within-budget state, which covers every reachable state of a
run (the loop starts at counter 0 and `step_counter_master` keeps continuing
states within budget). -/
theorem C1_empty_page_counter (cfg : CrawlConfig) (oracle : Nat → PageOutcome)
    (hmax : 1 ≤ cfg.max_empty_pages) (s : CrawlState)
    (hs : s.empty_pages_count < cfg.max_empty_pages) :
    (∀ a l next, ¬(a = 0 ∧ l = 0) →
      (contState (stepOutcome cfg s (.page a l next))).empty_pages_count = 0) ∧
    (∀ o, countsAsEmpty o = true →
      (contState (stepOutcome cfg s o)).empty_pages_count = s.empty_pages_count + 1) ∧
    (contState (stepOutcome cfg s .parseError)).empty_pages_count = s.empty_pages_count ∧
    (∀ o, stopOf (stepOutcome cfg s o) = some .noContent ↔
      countsAsEmpty o = true ∧ s.empty_pages_count + 1 = cfg.max_empty_pages) ∧
    (∀ fuel s' r, crawlLoop cfg oracle fuel s = some (s', r) →
      (r = .noContent ↔ s'.empty_pages_count = cfg.max_empty_pages)) := by
  refine ⟨fun a l next hne => step_reset cfg s a l next hne,
    fun o ho => step_increment cfg s o ho, rfl,
    fun o => step_noContent_iff cfg s o hs,
    fun fuel s' r h => crawlLoop_noContent_iff cfg oracle hmax fuel s s' r hs h⟩

/-- Witness for C1: the all-fetch-failures run with `max_empty_pages = 3`
starting at page 1 stops after exactly three failed pages with the counter at
the maximum. -/
theorem C1_empty_page_counter_witness :
    StopReason.noContent = StopReason.noContent ↔
      (⟨3, 3, [], ⟨0, 0, 0⟩, []⟩ : CrawlState).empty_pages_count =
        (⟨"https://x", 1, 3, 10⟩ : CrawlConfig).max_empty_pages :=
  (C1_empty_page_counter ⟨"https://x", 1, 3, 10⟩ (fun _ => .fetchFail) (by decide)
    (initState 1) (by decide)).2.2.2.2 10 ⟨3, 3, [], ⟨0, 0, 0⟩, []⟩ .noContent (by decide)

/-- C3, counterexample: a template that already carries a `page=` query
parameter whose value is not `1` is returned unchanged — the resolved URL for
page 3 still says `page=7` and nowhere carries page number 3, because the code
replaces the literal substring `'page=1'` rather than the parameter's value
(src/eastmoney_crawler.py line 153). -/
theorem C3_counterexample :
    build_url "https://x/p?page=7" 3 = "https://x/p?page=7" ∧
    strHas (build_url "https://x/p?page=7" 3) "page=3" = false := by decide

/-- C3 (amended): URL resolution is a total, deterministic function of the
template and the page number, and follows the priority order of the code:
(a) a template containing the `{page}` placeholder gets the page number
substituted there (so the resolved URL carries the page number's digits);
(b) otherwise, a template containing `?page=` has every occurrence of the
literal substring `page=1` replaced by `page=N` — the resolved URL carries N
only when the template's page parameter is literally `1`;
(c) otherwise `?page=N` is appended, and the resolved URL carries it. -/
theorem C3_url_resolution (base : String) (n : Nat) :
    (strHas base "{page}" = true →
      build_url base n = strReplace base "{page}" (toString n) ∧
      strHas (build_url base n) (toString n) = true) ∧
    (strHas base "{page}" = false → strHas base "?page=" = true →
      build_url base n = strReplace base "page=1" ("page=" ++ toString n)) ∧
    (strHas base "{page}" = false → strHas base "?page=" = false →
      build_url base n = base ++ "?page=" ++ toString n ∧
      strHas (build_url base n) ("?page=" ++ toString n) = true) := by
  refine ⟨fun h => ?_, fun h1 h2 => ?_, fun h1 h2 => ?_⟩
  · have he : build_url base n = strReplace base "{page}" (toString n) := by
      simp [build_url, h]
    refine ⟨he, ?_⟩
    rw [he]
    exact strHas_strReplace base _ _ (by decide) h
  · simp [build_url, h1, h2]
  · have he : build_url base n = base ++ "?page=" ++ toString n := by
      simp [build_url, h1, h2]
    refine ⟨he, ?_⟩
    rw [he]
    show hasSub ("?page=" ++ toString n).data (base ++ "?page=" ++ toString n).data = true
    rw [strData_append, strData_append, strData_append, List.append_assoc]
    exact hasSub_append_right base.data _

/-- Witness for C3 (amended), at a template with neither a placeholder nor a
`page=` parameter and page number 5. -/
theorem C3_url_resolution_witness :
    build_url "https://e.com/list" 5 = "https://e.com/list" ++ "?page=" ++ toString 5 ∧
    strHas (build_url "https://e.com/list" 5) ("?page=" ++ toString 5) = true :=
  (C3_url_resolution "https://e.com/list" 5).2.2 (by decide) (by decide)

/-- The checkpoint helper either leaves the save log alone or appends one
batch holding the last `save_interval` buffered results; it never clears the
buffer. -/
theorem maybeCheckpoint_saves (cfg : CrawlConfig) (t : CrawlState) :
    (maybeCheckpoint cfg t).saves = t.saves ∨
    ∃ lbl, (maybeCheckpoint cfg t).saves =
      t.saves ++ [(lbl, takeLast cfg.save_interval (maybeCheckpoint cfg t).all_data)] := by
  unfold maybeCheckpoint
  split
  · right
    exact ⟨_, rfl⟩
  · left
    rfl

/-- No step ever removes elements from the `all_data` buffer. -/
theorem step_buffer_grows (cfg : CrawlConfig) (s : CrawlState) (o : PageOutcome) :
    ∃ tail, (contState (stepOutcome cfg s o)).all_data = s.all_data ++ tail := by
  cases o with
  | fetchFail =>
    by_cases hc : cfg.max_empty_pages ≤ s.empty_pages_count + 1 <;>
      exact ⟨[], by simp [stepOutcome, hc, contState]⟩
  | parseError => exact ⟨[], by simp [stepOutcome, contState]⟩
  | page a l next =>
    by_cases he : a = 0 ∧ l = 0
    · by_cases hc : cfg.max_empty_pages ≤ s.empty_pages_count + 1
      · exact ⟨[], by simp [stepOutcome, he, hc, contState]⟩
      · refine ⟨[], ?_⟩
        simp only [stepOutcome, if_pos he, if_neg hc]
        rw [(afterData_preserves _ next).2.1]
        simp
    · refine ⟨[⟨s.page_num, build_url cfg.base_url s.page_num, a, l⟩], ?_⟩
      simp only [stepOutcome, if_neg he]
      rw [(afterData_preserves _ next).2.1, maybeCheckpoint_all_data]
      rfl

/-- A step either leaves the save log alone, or — exactly the periodic
checkpoint of a productive page — appends one batch holding the last
`save_interval` elements of the buffer as it stands after the append, leaving
the buffer itself intact. -/
theorem step_saves_shape (cfg : CrawlConfig) (s : CrawlState) (o : PageOutcome) :
    (contState (stepOutcome cfg s o)).saves = s.saves ∨
    ∃ lbl, (contState (stepOutcome cfg s o)).saves =
      s.saves ++ [(lbl, takeLast cfg.save_interval
        (contState (stepOutcome cfg s o)).all_data)] := by
  cases o with
  | fetchFail =>
    by_cases hc : cfg.max_empty_pages ≤ s.empty_pages_count + 1 <;>
      exact Or.inl (by simp [stepOutcome, hc, contState])
  | parseError => exact Or.inl (by simp [stepOutcome, contState])
  | page a l next =>
    by_cases he : a = 0 ∧ l = 0
    · by_cases hc : cfg.max_empty_pages ≤ s.empty_pages_count + 1
      · exact Or.inl (by simp [stepOutcome, he, hc, contState])
      · left
        simp only [stepOutcome, if_pos he, if_neg hc]
        rw [(afterData_preserves _ next).2.2.1]
    · have hmc := maybeCheckpoint_saves cfg (appendResult cfg s a l)
      simp only [stepOutcome, if_neg he]
      rw [(afterData_preserves _ next).2.2.1, (afterData_preserves _ next).2.1]
      rcases hmc with hmc | ⟨lbl, hmc⟩
      · left
        rw [hmc]
        rfl
      · right
        refine ⟨lbl, ?_⟩
        rw [hmc]
        rfl

/-- When a run of `crawl` ends with a nonempty buffer, its very last stored
batch is the `"final"` one and holds the entire buffer. -/
theorem crawl_final_save (cfg : CrawlConfig) (oracle : Nat → PageOutcome) (fuel : Nat)
    (s' : CrawlState) (r : StopReason) (h : crawl cfg oracle fuel = some (s', r))
    (hne : s'.all_data ≠ []) :
    s'.saves.getLast? = some ("final", s'.all_data) := by
  unfold crawl at h
  split at h
  · exact Option.noConfusion h
  · split at h
    · rename_i hd
      simp only [Option.some.injEq, Prod.mk.injEq] at h
      obtain ⟨h1, h2⟩ := h
      subst h1
      exact absurd hd hne
    · simp only [Option.some.injEq, Prod.mk.injEq] at h
      obtain ⟨h1, h2⟩ := h
      subst h1
      simp [List.getLast?_concat]

/-- C2, counterexample: with checkpoint interval 1 and two productive pages,
the run stores the first page's result in the periodic batch `batch_1` *and*
again in the `final` batch (the code saves `all_data[-save_interval:]` without
ever clearing `all_data`, then saves all of `all_data` at the end,
src/eastmoney_crawler.py lines 192–196 and 222–224) — so the union of all
stored batches counts it twice while the run produced it once: the union is
not duplicate-free, refuting the claim. -/
theorem C2_counterexample :
    crawl ⟨"https://x", 1, 3, 1⟩ oracleB 10 = some (stateB, .lastPage) ∧
    (savedRecords stateB).count resB1 = 2 ∧
    stateB.all_data.count resB1 = 1 := by decide

/-- C2 (amended): the buffer of produced results only ever grows (no step
removes elements), a periodic flush appends one batch holding the last
`save_interval` buffered results and leaves the buffer intact — so results
checkpointed periodically are stored again later — and a run that ends with a
nonempty buffer stores, as its last batch, the `"final"` batch holding exactly
the entire buffer of produced results (no duplicates and no omissions within
that final batch; the trailing periodic batches overlap with it). -/
theorem C2_checkpoint_batches (cfg : CrawlConfig) (oracle : Nat → PageOutcome) :
    (∀ s o, ∃ tail, (contState (stepOutcome cfg s o)).all_data = s.all_data ++ tail) ∧
    (∀ s o, (contState (stepOutcome cfg s o)).saves = s.saves ∨
      ∃ lbl, (contState (stepOutcome cfg s o)).saves =
        s.saves ++ [(lbl, takeLast cfg.save_interval
          (contState (stepOutcome cfg s o)).all_data)]) ∧
    (∀ fuel s' r, crawl cfg oracle fuel = some (s', r) → s'.all_data ≠ [] →
      s'.saves.getLast? = some ("final", s'.all_data)) :=
  ⟨fun s o => step_buffer_grows cfg s o, fun s o => step_saves_shape cfg s o,
    fun fuel s' r h hne => crawl_final_save cfg oracle fuel s' r h hne⟩

/-- Witness for C2 (amended): in the concrete duplicate-storage run, the last
stored batch is the final one holding the whole buffer. -/
theorem C2_checkpoint_batches_witness :
    stateB.saves.getLast? = some ("final", stateB.all_data) :=
  (C2_checkpoint_batches ⟨"https://x", 1, 3, 1⟩ oracleB).2.2 10 stateB .lastPage
    (by decide) (by decide)

/-- C4, counterexample: a fetch failure within budget increments the
consecutive-empty-page counter but leaves the error statistic at 0 — the code
path `if not html` (src/eastmoney_crawler.py lines 161–168) never touches
`self.stats['errors']`, refuting the claim that both are incremented. -/
theorem C4_counterexample :
    stopOf (stepOutcome ⟨"https://x", 1, 3, 10⟩ (initState 1) .fetchFail) = none ∧
    (contState (stepOutcome ⟨"https://x", 1, 3, 10⟩
      (initState 1) .fetchFail)).empty_pages_count = 1 ∧
    (contState (stepOutcome ⟨"https://x", 1, 3, 10⟩
      (initState 1) .fetchFail)).stats.errors = 0 := by decide

/-- C4 (amended): a fetch failure that does not exhaust the empty-page budget
increments only the consecutive-empty-page counter — the error statistic, the
buffer and the save log are untouched — and the iteration `continue`s directly
to the next page number: it neither consults the continuation predicate nor
performs the inter-page delay nor reaches the safety-ceiling check (the step
unconditionally continues, whatever the page number). -/
theorem C4_fetch_failure_path (cfg : CrawlConfig) (s : CrawlState)
    (h : s.empty_pages_count + 1 < cfg.max_empty_pages) :
    stepOutcome cfg s .fetchFail =
      .inl { s with empty_pages_count := s.empty_pages_count + 1,
                    page_num := s.page_num + 1 } := by
  have hc : ¬ cfg.max_empty_pages ≤ s.empty_pages_count + 1 := by omega
  simp [stepOutcome, hc]

/-- Witness for C4 (amended), at the initial state of a `max_empty_pages = 3`
run. -/
theorem C4_fetch_failure_path_witness :
    stepOutcome ⟨"https://x", 1, 3, 10⟩ (initState 1) .fetchFail =
      .inl { initState 1 with empty_pages_count := 1, page_num := 2 } :=
  C4_fetch_failure_path ⟨"https://x", 1, 3, 10⟩ (initState 1) (by decide)

/-- If every attempt from `rc` through `rc + d` fails and exactly `d` retries
remain, the fetch gives up with the failure value after logging `d` backoff
delays. -/
theorem fetchAux_all_fail (attempt : Nat → Option String) :
    ∀ d rc, (∀ i, rc ≤ i → i ≤ rc + d → attempt i = none) →
      fetchAux attempt d rc =
        (none, (List.range d).map (fun t => backoff_delay (rc + t))) := by
  intro d
  induction d with
  | zero =>
    intro rc hfail
    have h0 : attempt rc = none := hfail rc le_rfl (by omega)
    simp [fetchAux, h0]
  | succ d ih =>
    intro rc hfail
    have h0 : attempt rc = none := hfail rc le_rfl (by omega)
    have hrec := ih (rc + 1) (fun i h1 h2 => hfail i (by omega) (by omega))
    simp only [fetchAux, h0, hrec]
    refine Prod.ext rfl ?_
    simp only [List.range_succ_eq_map, List.map_cons, List.map_map, Nat.add_zero]
    refine congrArg (backoff_delay rc :: ·) ?_
    refine List.map_congr_left fun t _ => ?_
    simp only [Function.comp]
    exact congrArg backoff_delay (by omega)

/-- If attempts `rc, …, rc + d - 1` fail and attempt `rc + d` succeeds while
at least `d` retries remain, the fetch returns the page with exactly `d`
logged backoff delays. -/
theorem fetchAux_succeeds (attempt : Nat → Option String) (html : String) :
    ∀ d rem rc, d ≤ rem → (∀ i, rc ≤ i → i < rc + d → attempt i = none) →
      attempt (rc + d) = some html →
      fetchAux attempt rem rc =
        (some html, (List.range d).map (fun t => backoff_delay (rc + t))) := by
  intro d
  induction d with
  | zero =>
    intro rem rc _ _ hsucc
    rw [Nat.add_zero] at hsucc
    cases rem <;> simp [fetchAux, hsucc]
  | succ d ih =>
    intro rem rc hle hfail hsucc
    have h0 : attempt rc = none := hfail rc le_rfl (by omega)
    obtain ⟨rr, rfl⟩ : ∃ rr, rem = rr + 1 := ⟨rem - 1, by omega⟩
    have hrec := ih rr (rc + 1) (by omega)
      (fun i h1 h2 => hfail i (by omega) (by omega))
      (by rw [show rc + 1 + d = rc + (d + 1) from by omega] at *; exact hsucc)
    simp only [fetchAux, h0, hrec]
    refine Prod.ext rfl ?_
    simp only [List.range_succ_eq_map, List.map_cons, List.map_map, Nat.add_zero]
    refine congrArg (backoff_delay rc :: ·) ?_
    refine List.map_congr_left fun t _ => ?_
    simp only [Function.comp]
    exact congrArg backoff_delay (by omega)

/-- C5: `fetch_page` is a total function into an `Option` result — it never
propagates the fetch exception to its caller.  If every attempt up to and
including the `max_retries`-th fails, it returns the failure value `none`
after exactly `max_retries` logged retries; and if the first `k` attempts fail
and attempt `k` then succeeds with `k ≤ max_retries`, the page is recorded as
successful with exactly `k` logged retry events (the backoff delays
`2^0, …, 2^(k-1)`). -/
theorem C5_fetch_retry (max_retries : Nat) (attempt : Nat → Option String) :
    ((∀ i, i ≤ max_retries → attempt i = none) →
      fetch_page max_retries attempt 0 =
        (none, (List.range max_retries).map backoff_delay)) ∧
    (∀ k html, k ≤ max_retries → (∀ i, i < k → attempt i = none) →
      attempt k = some html →
      fetch_page max_retries attempt 0 =
        (some html, (List.range k).map backoff_delay)) := by
  constructor
  · intro hfail
    have := fetchAux_all_fail attempt max_retries 0
      (fun i h1 h2 => hfail i (by omega))
    simpa [fetch_page] using this
  · intro k html hk hfail hsucc
    have := fetchAux_succeeds attempt html k max_retries 0 hk
      (fun i h1 h2 => hfail i (by omega)) (by simpa using hsucc)
    simpa [fetch_page] using this

/-- Witness for C5: scenario D of the spec — the fetcher fails twice then
succeeds with `max_retries = 3`; the page is recorded as successful with
exactly two logged retries. -/
theorem C5_fetch_retry_witness :
    fetch_page 3 (fun i => if i < 2 then none else some "ok") 0 =
      (some "ok", (List.range 2).map backoff_delay) :=
  (C5_fetch_retry 3 (fun i => if i < 2 then none else some "ok")).2 2 "ok"
    (by decide) (by decide) (by decide)

/-- C6: the backoff delay slept before retry attempt `k` (the delay
`fetch_page` logs for its `k`-th retry event) equals `base * 2 ^ k` with
`base = 1` second — attempt 0 waits 1 unit, attempt 1 waits 2 units — and is
therefore non-decreasing in the attempt number. -/
theorem C6_backoff_schedule (j k : Nat) (h : j ≤ k) :
    backoff_delay k = 1 * 2 ^ k ∧
    backoff_delay 0 = 1 ∧ backoff_delay 1 = 2 ∧
    backoff_delay j ≤ backoff_delay k := by
  refine ⟨by simp [backoff_delay], rfl, rfl, ?_⟩
  exact Nat.pow_le_pow_right (by omega) h

/-- Witness for C6 at attempts 1 ≤ 2. -/
theorem C6_backoff_schedule_witness :
    backoff_delay 2 = 1 * 2 ^ 2 ∧ backoff_delay 0 = 1 ∧ backoff_delay 1 = 2 ∧
    backoff_delay 1 ≤ backoff_delay 2 :=
  C6_backoff_schedule 1 2 (by decide)

/-- C7, counterexample: a fetch failure at page 10000000 advances the cursor
past the safety ceiling with `continue`, skipping the ceiling check
(src/eastmoney_crawler.py lines 161–168 versus 207–212), and the run then
fully processes page 10000001 — its result is produced and the run ends with
`lastPage`, not `safetyLimit` — refuting "never processes a page number beyond
the ceiling, on every path including the fetch-failure path". -/
theorem C7_counterexample :
    (crawl ⟨"https://x", 10000000, 3, 10⟩
      (fun n => if n = 10000001 then .page 1 0 (.hasNext false) else .fetchFail) 5).map
      (fun p => (p.1.all_data.map PageResult.page, p.2)) =
      some ([10000001], .lastPage) := by decide

/-- C7 (amended): the safety-ceiling check happens only on the successful path
that passed the continuation predicate: there, if the advanced cursor exceeds
the ceiling the iteration breaks with `safetyLimit`, and any continuing
iteration on that path keeps the cursor at most the ceiling.  The
fetch-failure path (within budget) and the unexpected-error path advance the
cursor and continue unconditionally, without the ceiling check — so pages
beyond the ceiling can still be processed when reached through those paths. -/
theorem C7_safety_ceiling (cfg : CrawlConfig) (s : CrawlState) :
    (∀ a l, ¬(a = 0 ∧ l = 0) → safetyCeiling < s.page_num + 1 →
      stopOf (stepOutcome cfg s (.page a l (.hasNext true))) = some .safetyLimit ∧
      (contState (stepOutcome cfg s (.page a l (.hasNext true)))).page_num = s.page_num + 1) ∧
    (∀ a l, ¬(a = 0 ∧ l = 0) →
      stopOf (stepOutcome cfg s (.page a l (.hasNext true))) = none →
      (contState (stepOutcome cfg s (.page a l (.hasNext true)))).page_num ≤ safetyCeiling) ∧
    (s.empty_pages_count + 1 < cfg.max_empty_pages →
      stopOf (stepOutcome cfg s .fetchFail) = none ∧
      (contState (stepOutcome cfg s .fetchFail)).page_num = s.page_num + 1) ∧
    (stopOf (stepOutcome cfg s .parseError) = none ∧
      (contState (stepOutcome cfg s .parseError)).page_num = s.page_num + 1) := by
  refine ⟨fun a l hne hceil => ?_, fun a l hne h => ?_, fun h => ?_, ⟨rfl, rfl⟩⟩
  · simp only [stepOutcome, if_neg hne]
    have hpn : (maybeCheckpoint cfg (appendResult cfg s a l)).page_num = s.page_num := by
      rw [maybeCheckpoint_page_num]
      rfl
    simp only [afterData, hpn, if_pos hceil]
    exact ⟨rfl, rfl⟩
  · simp only [stepOutcome, if_neg hne] at h ⊢
    have hpn : (maybeCheckpoint cfg (appendResult cfg s a l)).page_num = s.page_num := by
      rw [maybeCheckpoint_page_num]
      rfl
    by_cases hceil : safetyCeiling < s.page_num + 1
    · exfalso
      simp [afterData, hpn, hceil, stopOf] at h
    · simp only [afterData, hpn, if_neg hceil, contState]
      omega
  · have hc : ¬ cfg.max_empty_pages ≤ s.empty_pages_count + 1 := by omega
    exact ⟨by simp [stepOutcome, hc, stopOf], by simp [stepOutcome, hc, contState]⟩

/-- Witness for C7 (amended): with the cursor at the ceiling, a productive
page followed by a positive continuation check breaks with `safetyLimit` at
cursor 10000001. -/
theorem C7_safety_ceiling_witness :
    stopOf (stepOutcome ⟨"https://x", 1, 3, 10⟩ ⟨10000000, 0, [], ⟨0, 0, 0⟩, []⟩
      (.page 1 0 (.hasNext true))) = some .safetyLimit ∧
    (contState (stepOutcome ⟨"https://x", 1, 3, 10⟩ ⟨10000000, 0, [], ⟨0, 0, 0⟩, []⟩
      (.page 1 0 (.hasNext true)))).page_num = 10000001 :=
  (C7_safety_ceiling ⟨"https://x", 1, 3, 10⟩ ⟨10000000, 0, [], ⟨0, 0, 0⟩, []⟩).1 1 0
    (by decide) (by decide)

/-- C8, counterexample: with `max_empty_pages = 1`, one productive page
followed by a zero-record page terminates with `noContent`, and the produced
results (hence the final persisted batch, which stores exactly `all_data`)
contain only page 1 — the trailing empty page 2 is **not** appended, because
the zero-record branch (src/eastmoney_crawler.py lines 175–180) `break`s
without ever reaching the append.  This refutes "still appending that empty
page's result". -/
theorem C8_counterexample :
    (crawl ⟨"https://x", 1, 1, 10⟩
      (fun n => if n = 1 then .page 2 3 (.hasNext true) else .page 0 0 (.hasNext true)) 5).map
      (fun p => (p.1.all_data.map PageResult.page, p.2)) =
      some ([1], .noContent) := by decide

/-- C8 (amended): when a successfully fetched page parses to zero records and
the incremented counter meets or exceeds the limit, the iteration breaks with
`noContent` *without* appending that page's result: the buffer, the save log
and the statistics are all left exactly as they were, so the final persisted
batch excludes the trailing empty page. -/
theorem C8_empty_page_no_append (cfg : CrawlConfig) (s : CrawlState) (a l : Nat)
    (next : NextOutcome) (ha : a = 0) (hl : l = 0)
    (h : cfg.max_empty_pages ≤ s.empty_pages_count + 1) :
    stepOutcome cfg s (.page a l next) =
      .inr ({ s with empty_pages_count := s.empty_pages_count + 1 }, .noContent) := by
  subst ha
  subst hl
  simp [stepOutcome, h]

/-- Witness for C8 (amended): a concrete within-one-of-limit state and an
empty page. -/
theorem C8_empty_page_no_append_witness :
    stepOutcome ⟨"https://x", 1, 1, 10⟩ ⟨2, 0, [⟨1, "u", 2, 3⟩], ⟨1, 5, 0⟩, []⟩
      (.page 0 0 (.hasNext true)) =
      .inr (⟨2, 1, [⟨1, "u", 2, 3⟩], ⟨1, 5, 0⟩, []⟩, .noContent) :=
  C8_empty_page_no_append ⟨"https://x", 1, 1, 10⟩ ⟨2, 0, [⟨1, "u", 2, 3⟩], ⟨1, 5, 0⟩, []⟩
    0 0 (.hasNext true) rfl rfl (by decide)

/-- C9: an unexpected per-page processing error (an exception outside the
fetch/parse failure contracts, caught by the generic `except Exception`
handler at src/eastmoney_crawler.py lines 217–220) is absorbed inside the
iteration: it increments the error statistic by exactly one, leaves the
consecutive-empty-page counter (and the buffer and save log) unchanged, and
the loop continues (`.inl`) at the next page number instead of terminating. -/
theorem C9_processing_error_transient (cfg : CrawlConfig) (s : CrawlState) :
    stepOutcome cfg s .parseError =
      .inl { s with stats := { s.stats with errors := s.stats.errors + 1 },
                    page_num := s.page_num + 1 } := rfl

/-- Every step preserves the statistics/buffer synchronisation. -/
theorem step_statsInv (cfg : CrawlConfig) (s : CrawlState) (o : PageOutcome)
    (h : statsInv s) : statsInv (contState (stepOutcome cfg s o)) := by
  obtain ⟨h1, h2⟩ := h
  cases o with
  | fetchFail =>
    by_cases hc : cfg.max_empty_pages ≤ s.empty_pages_count + 1 <;>
      exact ⟨by simpa [stepOutcome, hc, contState] using h1,
        by simpa [stepOutcome, hc, contState] using h2⟩
  | parseError => exact ⟨h1, h2⟩
  | page a l next =>
    by_cases he : a = 0 ∧ l = 0
    · by_cases hc : cfg.max_empty_pages ≤ s.empty_pages_count + 1
      · exact ⟨by simpa [stepOutcome, he, hc, contState] using h1,
          by simpa [stepOutcome, he, hc, contState] using h2⟩
      · constructor
        · simp only [stepOutcome, if_pos he, if_neg hc]
          rw [(afterData_preserves _ next).2.2.2.1, (afterData_preserves _ next).2.1]
          exact h1
        · simp only [stepOutcome, if_pos he, if_neg hc]
          rw [(afterData_preserves _ next).2.2.2.2, (afterData_preserves _ next).2.1]
          exact h2
    · have hst := maybeCheckpoint_stats cfg (appendResult cfg s a l)
      have had := maybeCheckpoint_all_data cfg (appendResult cfg s a l)
      constructor
      · simp only [stepOutcome, if_neg he]
        rw [(afterData_preserves _ next).2.2.2.1, (afterData_preserves _ next).2.1, hst, had]
        show s.stats.pages_crawled + 1 =
          (s.all_data ++
            [(⟨s.page_num, build_url cfg.base_url s.page_num, a, l⟩ : PageResult)]).length
        simp [h1]
      · simp only [stepOutcome, if_neg he]
        rw [(afterData_preserves _ next).2.2.2.2, (afterData_preserves _ next).2.1, hst, had]
        show s.stats.total_data + (a + l) =
          ((s.all_data ++
            [(⟨s.page_num, build_url cfg.base_url s.page_num, a, l⟩ : PageResult)]).map
              (fun r => r.articles + r.links)).sum
        rw [h2]
        simp only [List.map_append, List.sum_append, List.map_cons, List.map_nil,
          List.sum_cons, List.sum_nil]
        omega

/-- Every terminating run of the loop preserves the statistics/buffer
synchronisation from start state to stop state. -/
theorem crawlLoop_statsInv (cfg : CrawlConfig) (oracle : Nat → PageOutcome) :
    ∀ fuel s s' r, statsInv s → crawlLoop cfg oracle fuel s = some (s', r) →
      statsInv s' := by
  intro fuel
  induction fuel with
  | zero =>
    intro s s' r _ h
    simp [crawlLoop] at h
  | succ fuel ih =>
    intro s s' r hs h
    rw [crawlLoop] at h
    cases hstep : stepOutcome cfg s (oracle s.page_num) with
    | inl t =>
      rw [hstep] at h
      have ht := step_statsInv cfg s (oracle s.page_num) hs
      rw [hstep] at ht
      exact ih t s' r ht h
    | inr p =>
      obtain ⟨t, r'⟩ := p
      rw [hstep] at h
      have ht := step_statsInv cfg s (oracle s.page_num) hs
      rw [hstep] at ht
      have heq : (t, r') = (s', r) := Option.some_inj.mp h
      obtain ⟨ht', hr⟩ := Prod.mk.injEq _ _ _ _ |>.mp heq
      subst ht'
      exact ht

/-- C10: at every point of a run, `pages_crawled` equals the number of results
accumulated in the in-memory buffer (each append increments both together by
one) and `total_data` equals the sum of the buffered results' per-page record
counts (articles plus links): the synchronisation holds initially, is
preserved by every step, and hence holds at the end of every terminating
run. -/
theorem C10_stats_track_buffer (cfg : CrawlConfig) (oracle : Nat → PageOutcome) :
    statsInv (initState cfg.start_page) ∧
    (∀ s o, statsInv s → statsInv (contState (stepOutcome cfg s o))) ∧
    (∀ fuel s s' r, statsInv s → crawlLoop cfg oracle fuel s = some (s', r) →
      statsInv s') :=
  ⟨⟨rfl, rfl⟩, fun s o h => step_statsInv cfg s o h,
    fun fuel s s' r hs h => crawlLoop_statsInv cfg oracle fuel s s' r hs h⟩

/-- Witness for C10: one productive page (2 articles, 3 links) appended to the
empty initial buffer keeps the statistics synchronised. -/
theorem C10_stats_track_buffer_witness :
    statsInv (contState (stepOutcome ⟨"https://x", 1, 3, 10⟩ (initState 1)
      (.page 2 3 (.hasNext true)))) :=
  (C10_stats_track_buffer ⟨"https://x", 1, 3, 10⟩ (fun _ => .fetchFail)).2.1
    (initState 1) (.page 2 3 (.hasNext true)) ⟨rfl, rfl⟩

example : build_url "https://x?page=10" 3 = "https://x?page=30" := by decide
example : build_url "https://x/p?page=7" 3 = "https://x/p?page=7" := by decide
example : build_url "https://e.com/b?page={page}" 4 = "https://e.com/b?page=4" := by decide
example : build_url "https://e.com/b" 4 = "https://e.com/b?page=4" := by decide
example : fetch_page 3 (fun i => if i < 2 then none else some "ok") 0 = (some "ok", [1, 2]) := by
  decide

end RawlerApp
